import Mathlib

/-!
Verification of the pytask-manager script execution engine.

This file gives a shallow embedding, in Lean 4, of the parts of the
backend that the specification talks about:

* `backend/models.py` : the `Execution` and `Dependency` records and the
  execution status enumeration;
* `backend/script_manager.py` : dependency serialization
  (`setup_environment`), installed-version reconciliation, the output
  pipeline of `execute` (banner line, per-line `ERROR: ` prefixing,
  exit-code footer, timeout handling, process termination escalation)
  and `cleanup`;
* `backend/api/routes.py` : the `execute_script` route (interruption of
  a prior running execution, insertion of the new pending row) and the
  `_execute_script` background task (collection of the yielded lines
  into `log_output`, re-parsing of the exit code, final status update);
* `backend/scheduler.py` : crash recovery at startup, shutdown marking,
  and the execution records created by scheduled runs.

Database tables are modelled as lists of records, timestamps as natural
numbers, and the child process as the interleaved list of lines it
emits on stdout and stderr together with its exit code.  Python string
operations used by the code (`str.startswith`, `str.split`, `str.strip`,
`int(...)`, `str(...)`) are modelled by executable functions on
`List Char` defined below.
-/

namespace PyTaskManager


/-- Status enumeration from `backend/models.py` (`ExecutionStatus`). -/
inductive ExecutionStatus where
  | pending
  | running
  | success
  | failure
deriving DecidableEq, Repr

/-- Execution record from `backend/models.py` (`Execution`).  Timestamps
are abstract ticks (`Nat`); nullable columns are `Option`. -/
structure Execution where
  id : Nat
  script_id : Nat
  schedule_id : Option Nat
  started_at : Nat
  completed_at : Option Nat
  status : ExecutionStatus
  log_output : Option String
  error_message : Option String
deriving DecidableEq, Repr

/-- Dependency record from `backend/models.py` (`Dependency`). -/
structure Dependency where
  package_name : String
  version_spec : String
  installed_version : Option String
deriving DecidableEq, Repr

/-! ## Python string primitives

Executable models of the Python string operations used by the code:
`str.startswith`, `str.endswith`, `str(...)` on integers, `int(...)`,
`str.strip`, `str.split("return code")[-1]` and `"".join`. -/

/-- Python `s.startswith(p)`: prefix test on the character sequence. -/
def pyStartsWith (s p : String) : Bool :=
  p.data.isPrefixOf s.data

/-- Python `s.endswith(p)`: suffix test on the character sequence. -/
def pyEndsWith (s p : String) : Bool :=
  p.data.isSuffixOf s.data

/-- Python `"".join(lines)`. -/
def pyJoin : List String → String
  | [] => ""
  | s :: rest => s ++ pyJoin rest

/-- Decimal digit character (for digit values below ten). -/
def digitChar (d : Nat) : Char := Char.ofNat (48 + d)

/-- Little-endian decimal digit worker; the fuel is structural and any
fuel above the value gives the digits (see `natDigitsAux_big`). -/
def natDigitsAux : Nat → Nat → List Char
  | 0, _ => []
  | fuel + 1, n =>
    if n < 10 then [digitChar n]
    else digitChar (n % 10) :: natDigitsAux fuel (n / 10)

/-- Little-endian decimal digits of a natural number. -/
def natDigitsLE (n : Nat) : List Char := natDigitsAux (n + 1) n

/-- Python `str(n)` for a natural number. -/
def natToString (n : Nat) : String := ⟨(natDigitsLE n).reverse⟩

/-- Python `str(i)` for an integer. -/
def intToString : Int → String
  | .ofNat n => natToString n
  | .negSucc m => ⟨'-' :: (natDigitsLE (m + 1)).reverse⟩

/-- Value of a decimal digit character. -/
def digitVal (c : Char) : Nat := c.toNat - 48

/-- Value of a big-endian digit string. -/
def digitsVal (l : List Char) : Nat :=
  l.foldl (fun a c => 10 * a + digitVal c) 0

/-- Value of a little-endian digit string. -/
def digitsValLE : List Char → Nat
  | [] => 0
  | c :: rest => digitVal c + 10 * digitsValLE rest

/-- Parse of an unsigned decimal string (every character a digit,
nonempty), as Python `int` does after sign handling. -/
def parseNatDigits (l : List Char) : Option Nat :=
  if l ≠ [] ∧ l.all Char.isDigit then some (digitsVal l) else none

/-- Python `int(s)` on an already-stripped character sequence. -/
def pyIntOfChars : List Char → Option Int
  | [] => none
  | c :: rest =>
    if c = '-' then (parseNatDigits rest).map (fun n => -(n : Int))
    else if c = '+' then (parseNatDigits rest).map (fun n => (n : Int))
    else (parseNatDigits (c :: rest)).map (fun n => (n : Int))

/-- Whitespace characters removed by Python `str.strip()`. -/
def isPyWS (c : Char) : Bool :=
  c = ' ' || c = '\t' || c = '\n' || c = '\r'

/-- Python `str.strip()` on a character sequence. -/
def pyStripChars (l : List Char) : List Char :=
  ((l.dropWhile isPyWS).reverse.dropWhile isPyWS).reverse

/-- Python `int(s.strip())`, returning `none` on a `ValueError`. -/
def pyInt? (s : String) : Option Int := pyIntOfChars (pyStripChars s.data)

/-- Python `str.strip()`. -/
def pyStrip (s : String) : String := ⟨pyStripChars s.data⟩

/-- Python `str.lower()` (on the ASCII range used by package names). -/
def pyLower (s : String) : String := ⟨s.data.map Char.toLower⟩

/-- The separator used by `_execute_script` when re-parsing the exit
code out of a log line (`line.split("return code")[-1]`). -/
def retSep : List Char := "return code".data

/-- Scan worker for `str.split("return code")`; the fuel is structural
and any fuel at or above the length of the list gives the scan result. -/
def splitTailAux : Nat → List Char → Option (List Char)
  | 0, _ => none
  | fuel + 1, s =>
    match s with
    | [] => none
    | c :: rest =>
      if retSep.isPrefixOf (c :: rest) then
        let after := rest.drop (retSep.length - 1)
        some ((splitTailAux fuel after).getD after)
      else
        splitTailAux fuel rest

/-- Suffix after the last occurrence of `"return code"` found by the
left-to-right non-overlapping scan of Python `str.split`; `none` when
the separator does not occur. -/
def splitTailRet? (s : List Char) : Option (List Char) := splitTailAux s.length s

/-- Python `line.split("return code")[-1]` (the whole line when the
separator is absent). -/
def pySplitLastRet (s : String) : String :=
  ⟨(splitTailRet? s.data).getD s.data⟩

/-! ## Dependency serialization (claim C6)

Two serializers exist in the source: one in
`ScriptManager.setup_environment` (`backend/script_manager.py`
lines 159-181) and one in `_install_dependencies_task`
(`backend/api/routes.py` lines 880-891). -/

/-- Requirement line written by `ScriptManager.setup_environment`
(`backend/script_manager.py` lines 159-181).  The final branch treats a
nonempty spec that does not begin with `*` or `=` as an exact version
(`name==version`); otherwise it falls back to the bare name. -/
def requirementLineSetup (dep : Dependency) : String :=
  if dep.version_spec = "" ∨ dep.version_spec = "*" then
    pyStrip dep.package_name
  else if pyStartsWith dep.version_spec "==" then
    pyStrip dep.package_name ++ dep.version_spec
  else if pyStartsWith dep.version_spec ">=" ∨ pyStartsWith dep.version_spec "<=" ∨
      pyStartsWith dep.version_spec ">" ∨ pyStartsWith dep.version_spec "<" ∨
      pyStartsWith dep.version_spec "~=" then
    pyStrip dep.package_name ++ dep.version_spec
  else
    let version := pyStrip dep.version_spec
    if version ≠ "" ∧ ¬ pyStartsWith version "*" ∧ ¬ pyStartsWith version "=" then
      pyStrip dep.package_name ++ "==" ++ version
    else
      pyStrip dep.package_name

/-- Requirement line written by `_install_dependencies_task`
(`backend/api/routes.py` lines 880-891).  The final branch yields the
bare package name. -/
def requirementLineTask (dep : Dependency) : String :=
  if dep.version_spec = "" ∨ dep.version_spec = "*" then
    dep.package_name
  else if pyStartsWith dep.version_spec "==" then
    dep.package_name ++ dep.version_spec
  else if pyStartsWith dep.version_spec ">=" ∨ pyStartsWith dep.version_spec "<=" ∨
      pyStartsWith dep.version_spec ">" ∨ pyStartsWith dep.version_spec "<" ∨
      pyStartsWith dep.version_spec "~=" then
    dep.package_name ++ dep.version_spec
  else
    dep.package_name

/-- Modelled from the spec: the serialization rule exactly as the claim
states it (empty or `*` gives the bare name, a recognized comparison
operator is appended, anything else gives the bare name). -/
def requirementLineClaim (dep : Dependency) : String :=
  if dep.version_spec = "" ∨ dep.version_spec = "*" then
    dep.package_name
  else if pyStartsWith dep.version_spec "==" ∨ pyStartsWith dep.version_spec ">=" ∨
      pyStartsWith dep.version_spec "<=" ∨ pyStartsWith dep.version_spec ">" ∨
      pyStartsWith dep.version_spec "<" ∨ pyStartsWith dep.version_spec "~=" then
    dep.package_name ++ dep.version_spec
  else
    dep.package_name

/-! ## Installed-version reconciliation (claim C7)

The installed package set reported by pip is modelled as an association
list from package name to version, in report order. -/

/-- Exact-key lookup, modelling a Python dict membership test and
subscript (`if dep.package_name in installed_versions`). -/
def lookupExact (m : List (String × String)) (name : String) : Option String :=
  (m.find? (fun p => p.1 = name)).map Prod.snd

/-- Case-insensitive lookup, modelling
`next(k for k in installed_versions if k.lower() == dep.package_name.lower())`. -/
def lookupFold (m : List (String × String)) (name : String) : Option String :=
  (m.find? (fun p => pyLower p.1 = pyLower name)).map Prod.snd

/-- Update performed by `ScriptManager.setup_environment`
(`backend/script_manager.py` lines 192-196): only an exact
(case-sensitive) dict hit updates `installed_version`. -/
def updateInstalledSetup (m : List (String × String)) (dep : Dependency) : Dependency :=
  match lookupExact m dep.package_name with
  | some v => { dep with installed_version := some v }
  | none => dep

/-- Update performed by `_install_dependencies_task`
(`backend/api/routes.py` lines 919-929): a case-insensitive hit updates
`installed_version` with the version of the first matching key. -/
def updateInstalledTask (m : List (String × String)) (dep : Dependency) : Dependency :=
  match lookupFold m dep.package_name with
  | some v => { dep with installed_version := some v }
  | none => dep

/-! ## The execute output pipeline

`ScriptManager.execute` (`backend/script_manager.py` lines 297-453)
streams the child process output to the per-execution output file and
yields lines to its consumer; `_execute_script`
(`backend/api/routes.py` lines 1093-1165) collects the yielded lines.

The child process is modelled by the interleaved list of lines it emits
(each entry a pair of an is-stderr flag and the line text without the
trailing newline, matching `decoded_line` in `_stream_generator`) plus
its exit code. -/

/-- A line emitted by the child: is-stderr flag and text without the
trailing newline. -/
abbrev OutLine := Bool × String

/-- Initial message written by `execute` before the child is spawned
(`backend/script_manager.py` line 333). -/
def bannerLine : String := "Starting script execution...\n"

/-- Line written to the output file for one emitted line
(`_stream_generator`, line 39): stderr lines get the `ERROR: ` prefix,
and the newline is reinstated. -/
def fileLine (l : OutLine) : String :=
  (if l.1 then "ERROR: " ++ l.2 else l.2) ++ "\n"

/-- Footer appended when the child exits nonzero
(`backend/script_manager.py` line 388). -/
def exitFooter (code : Int) : String :=
  "Error: Script exited with return code " ++ intToString code ++ "\n"

/-- Prefix tested by `_execute_script` (`backend/api/routes.py`
line 1124) to recognize an exit-code line. -/
def footerMark : String := "Error: Script exited with return code"

/-- Exit code re-parsed by `_execute_script` from a recognized line
(`backend/api/routes.py` lines 1126-1128); a parse failure yields 1. -/
def parseReturnCode (line : String) : Int :=
  match pyInt? (pySplitLastRet line) with
  | some n => n
  | none => 1

/-! ### The remaining source of `execute` and `_execute_script` -/

/-- Content of the per-execution output file at the end of a run in
which the dependency check passed, the script file existed and no
timeout occurred: the banner, then one line per emitted child line
(stderr prefixed), then the exit-code footer when the exit code is
nonzero (`backend/script_manager.py` lines 333, 39-43, 386-390). -/
def fileContentOf (events : List OutLine) (code : Int) : String :=
  bannerLine ++ pyJoin (events.map fileLine) ++
    (if code ≠ 0 then exitFooter code else "")

/-- Lines yielded by `ScriptManager.execute` to its consumer on a run
without timeout: the footer when the exit is nonzero (line 391), and
finally the whole output-file content (lines 394-398; the file always
holds at least the banner, so the content is yielded unconditionally).
The per-line yields of `_stream_generator` (line 46) go to
`_stream_handler`, whose collected lists `execute` discards
(lines 370-380), so they never reach the consumer. -/
def executeYields (events : List OutLine) (code : Int) : List String :=
  (if code ≠ 0 then [exitFooter code] else []) ++
    [fileContentOf events code]

/-- `log_output` stored by `_execute_script` (`backend/api/routes.py`
line 1135): the plain concatenation of the yielded lines. -/
def logOutputOf (events : List OutLine) (code : Int) : String :=
  pyJoin (executeYields events code)

/-- Exit code recomputed by `_execute_script` from the yielded lines
(`backend/api/routes.py` lines 1119-1128): the last line starting with
the footer mark determines it, starting from 0. -/
def parsedExitCode (lines : List String) : Int :=
  lines.foldl
    (fun acc l => if pyStartsWith l footerMark then parseReturnCode l else acc) 0

/-- Final status and error message stored by `_execute_script`
(`backend/api/routes.py` lines 1137-1141). -/
def executionResultOf (events : List OutLine) (code : Int) :
    ExecutionStatus × Option String :=
  let ec := parsedExitCode (executeYields events code)
  if ec ≠ 0 then
    (ExecutionStatus.failure, some ("Script exited with return code " ++ intToString ec))
  else
    (ExecutionStatus.success, none)

/-! ## Execution rows: operations of the routes and the scheduler

The executions table is a list of `Execution` rows; each operation is
the transformation the corresponding commit performs. -/

/-- Error message set when a new run interrupts a running one
(`backend/api/routes.py` line 527). -/
def interruptMsg : String := "Execution interrupted by new execution request"

/-- Error message set by crash recovery (`backend/scheduler.py`
line 42). -/
def restartMsg : String := "Execution interrupted by server restart"

/-- Error message set on graceful shutdown (`backend/scheduler.py`
line 96). -/
def shutdownMsg : String := "Execution interrupted by server shutdown"

/-- Fresh PENDING row inserted by `execute_script`
(`backend/api/routes.py` lines 530-537). -/
def mkPending (id sid now : Nat) : Execution :=
  { id := id, script_id := sid, schedule_id := none, started_at := now,
    completed_at := none, status := ExecutionStatus.pending,
    log_output := none, error_message := none }

/-- The `execute_script` route up to the insertion of the new row
(`backend/api/routes.py` lines 513-537): the query selects rows of this
script whose status is RUNNING only; `scalar_one_or_none` raises
`MultipleResultsFound` when more than one row matches; a single match
is marked FAILURE with `interruptMsg` and `completed_at` before the new
PENDING row is appended. -/
def executeScriptRoute (db : List Execution) (sid now newId : Nat) :
    Except String (List Execution) :=
  match db.filter (fun e => e.script_id == sid && e.status == ExecutionStatus.running) with
  | [] => Except.ok (db ++ [mkPending newId sid now])
  | [r] =>
    Except.ok ((db.map (fun e => if e.id == r.id then
      { e with status := ExecutionStatus.failure, completed_at := some now,
               error_message := some interruptMsg } else e)) ++ [mkPending newId sid now])
  | _ => Except.error "MultipleResultsFound"

/-- Marking applied to one stale row (`backend/scheduler.py`
lines 38-42 and 92-96). -/
def markInterrupted (msg : String) (now : Nat) (e : Execution) : Execution :=
  if e.status == ExecutionStatus.pending || e.status == ExecutionStatus.running then
    { e with status := ExecutionStatus.failure, completed_at := some now,
             error_message := some msg }
  else e

/-- Crash-recovery pass of `SchedulerService.start`
(`backend/scheduler.py` lines 33-43), run before `scheduler.start()`;
every PENDING or RUNNING row is marked FAILURE with `restartMsg`. -/
def schedulerStartRecovery (db : List Execution) (now : Nat) : List Execution :=
  db.map (markInterrupted restartMsg now)

/-- Shutdown pass of `SchedulerService.stop` (`backend/scheduler.py`
lines 87-97). -/
def schedulerStopMark (db : List Execution) (now : Nat) : List Execution :=
  db.map (markInterrupted shutdownMsg now)

/-- Status update to RUNNING by `_execute_script`
(`backend/api/routes.py` lines 1110-1112). -/
def markRunningOp (db : List Execution) (eid : Nat) : List Execution :=
  db.map (fun e => if e.id == eid then
    { e with status := ExecutionStatus.running } else e)

/-- Final update of `_execute_script` (`backend/api/routes.py`
lines 1133-1143): `completed_at` and `log_output` are set, then the
status and error message follow the re-parsed exit code. -/
def finishOp (db : List Execution) (eid now : Nat) (log : String) (ec : Int) :
    List Execution :=
  db.map (fun e => if e.id == eid then
    { e with completed_at := some now, log_output := some log,
             status := if ec ≠ 0 then ExecutionStatus.failure else ExecutionStatus.success,
             error_message := if ec ≠ 0 then
               some ("Script exited with return code " ++ intToString ec)
               else e.error_message }
    else e)

/-- Failure update used by the exception handler of `_execute_script`
(`backend/api/routes.py` lines 1148-1155), by the cancellation and
error handlers of `SchedulerService._execute_script`
(`backend/scheduler.py` lines 192-220) and by the setup failure branch
of the route (lines 559-564). -/
def failOp (db : List Execution) (eid now : Nat) (msg : String) : List Execution :=
  db.map (fun e => if e.id == eid then
    { e with status := ExecutionStatus.failure, completed_at := some now,
             error_message := some msg } else e)

/-- RUNNING row inserted by `SchedulerService._execute_script`
(`backend/scheduler.py` lines 174-179). -/
def mkScheduledRunning (id sid schedId now : Nat) : Execution :=
  { id := id, script_id := sid, schedule_id := some schedId, started_at := now,
    completed_at := none, status := ExecutionStatus.running,
    log_output := none, error_message := none }

/-- PENDING row inserted by `SchedulerService._run_script`
(`backend/scheduler.py` lines 306-312). -/
def mkScheduledPending (id sid schedId now : Nat) : Execution :=
  { id := id, script_id := sid, schedule_id := some schedId, started_at := now,
    completed_at := none, status := ExecutionStatus.pending,
    log_output := none, error_message := none }

/-- FAILURE row inserted by `SchedulerService._run_script` when the
dependency check fails (`backend/scheduler.py` lines 290-298). -/
def mkScheduledDepFailure (id sid schedId now : Nat) : Execution :=
  { id := id, script_id := sid, schedule_id := some schedId, started_at := now,
    completed_at := some now, status := ExecutionStatus.failure,
    log_output := none,
    error_message := some "Cannot execute script with uninstalled dependencies" }

/-- Success update of `SchedulerService._run_script_with_output`
(`backend/scheduler.py` lines 245-251). -/
def schedSuccessOp (db : List Execution) (eid now : Nat) (log : String) :
    List Execution :=
  db.map (fun e => if e.id == eid then
    { e with status := ExecutionStatus.success, completed_at := some now,
             log_output := some log } else e)

/-- Failure update of `SchedulerService._run_script_with_output`
(`backend/scheduler.py` lines 258-265). -/
def schedFailureOp (db : List Execution) (eid now : Nat) (msg log : String) :
    List Execution :=
  db.map (fun e => if e.id == eid then
    { e with status := ExecutionStatus.failure, completed_at := some now,
             error_message := some msg, log_output := some log } else e)

/-! ## Invariant I2: completed_at is set iff the status is terminal -/

/-- Row-level form of invariant I2. -/
def invE (e : Execution) : Prop :=
  e.completed_at.isSome = true ↔
    (e.status = ExecutionStatus.success ∨ e.status = ExecutionStatus.failure)

instance (e : Execution) : Decidable (invE e) := by
  unfold invE
  infer_instance

/-- Table-level form of invariant I2. -/
def I2 (db : List Execution) : Prop := ∀ e ∈ db, invE e

instance (db : List Execution) : Decidable (I2 db) := by
  unfold I2
  infer_instance

/-! ## Timeout handling (claim C4)

On timeout, `execute` yields a literal line (the format string at
`backend/script_manager.py` line 365 is missing its `f` prefix, so the
braces appear verbatim) and raises `RuntimeError` with the line-366
message; `_execute_script` catches it and stores `str(e)` as the error
message. The `finally` block (lines 435-453) terminates the child and
kills it when it does not exit within the five second grace period. -/

/-- Process-lifecycle actions taken by the `finally` block. -/
inductive ProcAction where
  | terminate
  | kill
deriving DecidableEq, Repr

/-- Actions of the `finally` block (`backend/script_manager.py`
lines 435-445): nothing when the child already exited, otherwise
terminate followed by kill when the grace period runs out. -/
def terminationActions (childExited : Bool) (exitsWithinGrace : Bool) :
    List ProcAction :=
  if childExited then []
  else
    ProcAction.terminate ::
      (if exitsWithinGrace then [] else [ProcAction.kill])

/-- Message of the `RuntimeError` raised on timeout
(`backend/script_manager.py` line 366), which `_execute_script` stores
as `error_message` via `str(e)` (`backend/api/routes.py` line 1154). -/
def timeoutExnMessage (maxT : Nat) : String :=
  "Script timed out after " ++ natToString maxT ++ " seconds"

/-- Line yielded on timeout (`backend/script_manager.py` line 365): the
string is not an f-string, so the braces and the expression inside them
appear verbatim. -/
def timeoutYieldLine : String :=
  "Error: Script execution timed out after \x7bsettings.max_execution_time\x7d seconds\n"

/-- Modelled from the spec: the timeout error message the claim
asserts. -/
def claimTimeoutMessage (maxT : Nat) : String :=
  "Script execution timed out after " ++ natToString maxT ++ " seconds"

/-- Database update performed when the timeout `RuntimeError`
propagates to the exception handler of `_execute_script`
(`backend/api/routes.py` lines 1146-1155). -/
def timeoutDbUpdate (db : List Execution) (eid now maxT : Nat) : List Execution :=
  failOp db eid now (timeoutExnMessage maxT)

/-! ## The action trace of execute (claim C9) -/

/-- Observable steps of `ScriptManager.execute` in order. -/
inductive ExecStep where
  | yieldLine (s : String)
  | raiseErr (msg : String)
  | touchOutput
  | writeFile (s : String)
  | spawnChild
deriving DecidableEq, Repr

/-- Steps taken for each emitted child line (`_stream_generator`
lines 36-46): the prefixed line is written to the file; the stripped
line goes only to the stream handler tasks, whose results `execute`
discards, so no consumer-visible yield happens here. -/
def eventSteps : List OutLine → List ExecStep
  | [] => []
  | l :: rest => ExecStep.writeFile (fileLine l) :: eventSteps rest

/-- Trace of `ScriptManager.execute` (`backend/script_manager.py`
lines 297-398) for a run without timeout: the dependency check
(lines 302-304), the script existence check (lines 317-318), the touch
of the output file (line 321), the banner write (line 333), the spawn
(line 338), the streamed lines, the footer on nonzero exit
(lines 387-391) and the final yield of the file content
(lines 394-398). -/
def executeTrace (depsOk scriptExists : Bool) (events : List OutLine)
    (code : Int) : List ExecStep :=
  if depsOk = false then
    [ExecStep.yieldLine "Error: Cannot execute script with uninstalled dependencies\n",
     ExecStep.raiseErr "Cannot execute script with uninstalled dependencies"]
  else if scriptExists = false then
    [ExecStep.raiseErr "Script file not found"]
  else
    ExecStep.touchOutput :: ExecStep.writeFile bannerLine :: ExecStep.spawnChild ::
      (eventSteps events ++
        (if code ≠ 0 then
          [ExecStep.writeFile (exitFooter code), ExecStep.yieldLine (exitFooter code)]
         else []) ++
        [ExecStep.yieldLine (fileContentOf events code)])

/-- First line of a string: the characters before the first newline. -/
def firstLine (s : String) : String :=
  ⟨s.data.takeWhile (fun c => !(c == '\n'))⟩

/-! ## cleanup (claim C10)

`ScriptManager.cleanup` (`backend/script_manager.py` lines 455-550)
operates on the files of the script directory; the directory content is
modelled as the list of file names it holds. -/

/-- Glob `output_*.txt` used at line 470. -/
def isOutputTxt (f : String) : Bool :=
  pyStartsWith f "output_" && pyEndsWith f ".txt"

/-- Names removed by the temporary-file pass (lines 468-490): the
output files, the pip log (`pip.log`, line 95) and the two pip marker
files. -/
def isTempFile (f : String) : Bool :=
  isOutputTxt f || f == "pip.log" || f == "pip_finished" || f == "pip_success"

/-- `ScriptManager.cleanup`: a missing directory is untouched
(lines 462-463); with `remove_environment=True` the whole directory is
removed (lines 496-548); otherwise only the temporary files are
removed. -/
def cleanup (dirExists : Bool) (removeEnvironment : Bool)
    (files : List String) : List String :=
  if dirExists = false then files
  else if removeEnvironment then []
  else files.filter (fun f => !(isTempFile f))

/-! ### Round-trip lemmas for the decimal model -/

theorem digitVal_digitChar {d : Nat} (h : d < 10) : digitVal (digitChar d) = d := by
  interval_cases d <;> decide

theorem isDigit_digitChar {d : Nat} (h : d < 10) : (digitChar d).isDigit = true := by
  interval_cases d <;> decide

theorem natDigitsAux_ne_nil : ∀ fuel n, n < fuel → natDigitsAux fuel n ≠ [] := by
  intro fuel
  induction fuel with
  | zero => intro n h; omega
  | succ f ih =>
    intro n h
    show (if n < 10 then [digitChar n]
      else digitChar (n % 10) :: natDigitsAux f (n / 10)) ≠ []
    split <;> simp

theorem natDigitsLE_ne_nil (n : Nat) : natDigitsLE n ≠ [] :=
  natDigitsAux_ne_nil (n + 1) n (by omega)

theorem all_isDigit_natDigitsAux : ∀ fuel n, n < fuel →
    (natDigitsAux fuel n).all Char.isDigit = true := by
  intro fuel
  induction fuel with
  | zero => intro n h; omega
  | succ f ih =>
    intro n h
    show (if n < 10 then [digitChar n]
      else digitChar (n % 10) :: natDigitsAux f (n / 10)).all Char.isDigit = true
    split
    · next h10 => simp [isDigit_digitChar h10]
    · next h10 =>
      have hlt : n / 10 < n := Nat.div_lt_self (by omega) (by omega)
      have hm : n % 10 < 10 := Nat.mod_lt n (by omega)
      simp [isDigit_digitChar hm, ih (n / 10) (by omega)]

theorem all_isDigit_natDigitsLE (n : Nat) : (natDigitsLE n).all Char.isDigit = true :=
  all_isDigit_natDigitsAux (n + 1) n (by omega)

theorem digitsValLE_natDigitsAux : ∀ fuel n, n < fuel →
    digitsValLE (natDigitsAux fuel n) = n := by
  intro fuel
  induction fuel with
  | zero => intro n h; omega
  | succ f ih =>
    intro n h
    show digitsValLE (if n < 10 then [digitChar n]
      else digitChar (n % 10) :: natDigitsAux f (n / 10)) = n
    split
    · next h10 => simp [digitsValLE, digitVal_digitChar h10]
    · next h10 =>
      have hlt : n / 10 < n := Nat.div_lt_self (by omega) (by omega)
      have hm : n % 10 < 10 := Nat.mod_lt n (by omega)
      simp [digitsValLE, digitVal_digitChar hm, ih (n / 10) (by omega)]
      omega

theorem digitsValLE_natDigitsLE (n : Nat) : digitsValLE (natDigitsLE n) = n :=
  digitsValLE_natDigitsAux (n + 1) n (by omega)

theorem digitsVal_append_single (l : List Char) (c : Char) :
    digitsVal (l ++ [c]) = 10 * digitsVal l + digitVal c := by
  simp [digitsVal, List.foldl_append]

theorem digitsVal_reverse (l : List Char) : digitsVal l.reverse = digitsValLE l := by
  induction l with
  | nil => rfl
  | cons c rest ih =>
    rw [List.reverse_cons, digitsVal_append_single, ih]
    simp [digitsValLE]
    omega

theorem parseNatDigits_natDigits (n : Nat) :
    parseNatDigits ((natDigitsLE n).reverse) = some n := by
  unfold parseNatDigits
  rw [if_pos]
  · rw [digitsVal_reverse, digitsValLE_natDigitsLE]
  · refine ⟨by simp [natDigitsLE_ne_nil n], ?_⟩
    rw [List.all_reverse]
    exact all_isDigit_natDigitsLE n

theorem exists_digit_head (n : Nat) :
    ∃ c t, natDigitsLE n = c :: t ∧ c.isDigit = true := by
  cases h : natDigitsLE n with
  | nil => exact absurd h (natDigitsLE_ne_nil n)
  | cons c t =>
    refine ⟨c, t, rfl, ?_⟩
    have hall := all_isDigit_natDigitsLE n
    rw [h] at hall
    simp [List.all_cons] at hall
    exact hall.1

theorem exists_digit_head_rev (n : Nat) :
    ∃ c t, (natDigitsLE n).reverse = c :: t ∧ c.isDigit = true := by
  cases h : (natDigitsLE n).reverse with
  | nil =>
    have : natDigitsLE n = [] := by simpa using congrArg List.reverse h
    exact absurd this (natDigitsLE_ne_nil n)
  | cons c t =>
    refine ⟨c, t, rfl, ?_⟩
    have hall := all_isDigit_natDigitsLE n
    rw [← List.all_reverse, h] at hall
    simp [List.all_cons] at hall
    exact hall.1

theorem ne_of_isDigit {c x : Char} (h : c.isDigit = true) (hx : x.isDigit = false) :
    c ≠ x := by
  intro he
  rw [he] at h
  rw [h] at hx
  exact absurd hx (by simp)

theorem not_ws_of_isDigit {c : Char} (h : c.isDigit = true) : isPyWS c = false := by
  by_contra hc
  have hws : isPyWS c = true := by
    revert hc
    cases isPyWS c <;> simp
  simp [isPyWS] at hws
  rcases hws with ((h1 | h1) | h1) | h1 <;> subst h1 <;> exact absurd h (by decide)

theorem pyIntOfChars_intToString (code : Int) :
    pyIntOfChars (intToString code).data = some code := by
  cases code with
  | ofNat n =>
    show pyIntOfChars ((natDigitsLE n).reverse) = some (Int.ofNat n)
    obtain ⟨c, t, heq, hdig⟩ := exists_digit_head_rev n
    rw [heq]
    have h1 : c ≠ '-' := ne_of_isDigit hdig (by decide)
    have h2 : c ≠ '+' := ne_of_isDigit hdig (by decide)
    simp only [pyIntOfChars, if_neg h1, if_neg h2]
    rw [← heq, parseNatDigits_natDigits]
    rfl
  | negSucc m =>
    show pyIntOfChars ('-' :: (natDigitsLE (m + 1)).reverse) = some (Int.negSucc m)
    simp only [pyIntOfChars, if_pos rfl]
    rw [parseNatDigits_natDigits]
    simp [Int.negSucc_eq]

theorem dropWhile_cons_of_false {p : Char → Bool} {c : Char} (t : List Char)
    (h : p c = false) : List.dropWhile p (c :: t) = c :: t := by
  simp [List.dropWhile_cons, h]

theorem pyStrip_wrap (code : Int) :
    pyStripChars (' ' :: (intToString code).data ++ ['\n']) = (intToString code).data := by
  have step1 : ∀ l : List Char, (∃ c t, l = c :: t ∧ isPyWS c = false) →
      List.dropWhile isPyWS (' ' :: l ++ ['\n']) = l ++ ['\n'] := by
    rintro l ⟨c, t, heq, hc⟩
    rw [List.cons_append, List.dropWhile_cons]
    simp only [show isPyWS ' ' = true from by decide, if_pos]
    rw [heq, List.cons_append]
    exact dropWhile_cons_of_false _ hc
  have step2 : ∀ l : List Char, (∃ c t, l.reverse = c :: t ∧ isPyWS c = false) →
      List.dropWhile isPyWS ((l ++ ['\n']).reverse) = l.reverse := by
    rintro l ⟨c, t, heq, hc⟩
    rw [List.reverse_append]
    simp only [List.reverse_cons, List.reverse_nil, List.nil_append, List.singleton_append]
    rw [List.dropWhile_cons]
    simp only [show isPyWS '\n' = true from by decide, if_pos]
    rw [heq]
    exact dropWhile_cons_of_false _ hc
  have hhead : ∃ c t, (intToString code).data = c :: t ∧ isPyWS c = false := by
    cases code with
    | ofNat n =>
      obtain ⟨c, t, heq, hdig⟩ := exists_digit_head_rev n
      exact ⟨c, t, heq, not_ws_of_isDigit hdig⟩
    | negSucc m =>
      exact ⟨'-', (natDigitsLE (m + 1)).reverse, rfl, by decide⟩
  have hlast : ∃ c t, (intToString code).data.reverse = c :: t ∧ isPyWS c = false := by
    cases code with
    | ofNat n =>
      obtain ⟨c, t, heq, hdig⟩ := exists_digit_head n
      refine ⟨c, t, ?_, not_ws_of_isDigit hdig⟩
      show ((natDigitsLE n).reverse).reverse = c :: t
      rw [List.reverse_reverse, heq]
    | negSucc m =>
      obtain ⟨c, t, heq, hdig⟩ := exists_digit_head (m + 1)
      refine ⟨c, t ++ ['-'], ?_, not_ws_of_isDigit hdig⟩
      show ('-' :: (natDigitsLE (m + 1)).reverse).reverse = c :: (t ++ ['-'])
      rw [List.reverse_cons, List.reverse_reverse, heq, List.cons_append]
  unfold pyStripChars
  rw [step1 _ hhead, step2 _ hlast, List.reverse_reverse]

theorem pyInt_wrap (code : Int) :
    pyInt? ⟨' ' :: (intToString code).data ++ ['\n']⟩ = some code := by
  show pyIntOfChars (pyStripChars (' ' :: (intToString code).data ++ ['\n'])) = some code
  rw [pyStrip_wrap, pyIntOfChars_intToString]

/-! ### Behaviour of the split model -/

theorem isPrefixOf_append_left (p : List Char) :
    ∀ (x y : List Char), p.length ≤ x.length →
      p.isPrefixOf (x ++ y) = p.isPrefixOf x := by
  induction p with
  | nil => intro x y _; simp [List.isPrefixOf]
  | cons a p ih =>
    intro x y h
    cases x with
    | nil => simp at h
    | cons b x' =>
      show (a == b && p.isPrefixOf (x' ++ y)) = (a == b && p.isPrefixOf x')
      rw [ih x' y (by simpa using h)]

theorem isPrefixOf_self_append (p y : List Char) : p.isPrefixOf (p ++ y) = true := by
  induction p with
  | nil => simp [List.isPrefixOf]
  | cons a p ih =>
    show (a == a && p.isPrefixOf (p ++ y)) = true
    simp [ih]

theorem splitTailAux_none_of_no_r : ∀ fuel (s : List Char), 'r' ∉ s →
    splitTailAux fuel s = none := by
  intro fuel
  induction fuel with
  | zero => intro s _; rfl
  | succ f ih =>
    intro s h
    cases s with
    | nil => rfl
    | cons c rest =>
      have hc : ¬ (retSep.isPrefixOf (c :: rest) = true) := by
        intro hp
        have hr : ('r' == c) = true := by
          have hexp : (('r' == c) && ("eturn code".data.isPrefixOf rest)) = true := hp
          exact (Bool.and_eq_true_iff.mp hexp).1
        exact h (List.mem_cons.mpr (Or.inl (beq_iff_eq.mp hr)))
      show (if retSep.isPrefixOf (c :: rest) then
          some ((splitTailAux f (rest.drop (retSep.length - 1))).getD
            (rest.drop (retSep.length - 1)))
        else splitTailAux f rest) = none
      rw [if_neg hc]
      exact ih rest (fun hm => h (List.mem_cons_of_mem _ hm))

theorem splitTailRet_none_of_no_r (s : List Char) (h : 'r' ∉ s) :
    splitTailRet? s = none :=
  splitTailAux_none_of_no_r s.length s h

theorem splitTailAux_across (B : List Char) (hB : 'r' ∉ B) :
    ∀ (A : List Char) (fuel : Nat),
      (A ++ (retSep ++ B)).length ≤ fuel →
      (∀ i, i < A.length → retSep.isPrefixOf ((A ++ retSep).drop i) = false) →
      splitTailAux fuel (A ++ (retSep ++ B)) = some B := by
  intro A
  induction A with
  | nil =>
    intro fuel hfuel _
    cases fuel with
    | zero =>
      exfalso
      simp only [List.nil_append, List.length_append] at hfuel
      have h11 : retSep.length = 11 := by decide
      omega
    | succ f =>
      show splitTailAux (f + 1) ([] ++ (retSep ++ B)) = some B
      rw [List.nil_append]
      rw [show retSep ++ B = 'r' :: ("eturn code".data ++ B) from rfl]
      show (if retSep.isPrefixOf ('r' :: ("eturn code".data ++ B)) then
          some ((splitTailAux f (("eturn code".data ++ B).drop (retSep.length - 1))).getD
            (("eturn code".data ++ B).drop (retSep.length - 1)))
        else splitTailAux f ("eturn code".data ++ B)) = some B
      have hpre : retSep.isPrefixOf ('r' :: ("eturn code".data ++ B)) = true := by
        rw [show 'r' :: ("eturn code".data ++ B) = retSep ++ B from rfl]
        exact isPrefixOf_self_append retSep B
      rw [if_pos hpre]
      have hdrop : ("eturn code".data ++ B).drop (retSep.length - 1) = B := by
        rw [show retSep.length - 1 = "eturn code".data.length from rfl]
        exact List.drop_left _ _
      rw [hdrop, splitTailAux_none_of_no_r f B hB]
      rfl
  | cons a A' ih =>
    intro fuel hfuel hA
    cases fuel with
    | zero =>
      exfalso
      simp at hfuel
    | succ f =>
      have h0 := hA 0 (by simp)
      rw [List.drop_zero] at h0
      show (if retSep.isPrefixOf (a :: (A' ++ (retSep ++ B))) then
          some ((splitTailAux f ((A' ++ (retSep ++ B)).drop (retSep.length - 1))).getD
            ((A' ++ (retSep ++ B)).drop (retSep.length - 1)))
        else splitTailAux f (A' ++ (retSep ++ B))) = some B
      have hcond : retSep.isPrefixOf (a :: (A' ++ (retSep ++ B))) = false := by
        have hassoc : a :: (A' ++ (retSep ++ B)) = ((a :: A') ++ retSep) ++ B := by
          simp
        rw [hassoc, isPrefixOf_append_left retSep _ B (by simp [retSep])]
        exact h0
      rw [if_neg (by simp [hcond])]
      refine ih f ?_ (fun i hi => by
        have := hA (i + 1) (by simpa using Nat.succ_lt_succ hi)
        simpa using this)
      have hlen : ((a :: A') ++ (retSep ++ B)).length =
          (A' ++ (retSep ++ B)).length + 1 := by simp
      omega

theorem splitTailRet_across (B : List Char) (hB : 'r' ∉ B) (A : List Char)
    (hA : ∀ i, i < A.length → retSep.isPrefixOf ((A ++ retSep).drop i) = false) :
    splitTailRet? (A ++ (retSep ++ B)) = some B :=
  splitTailAux_across B hB A (A ++ (retSep ++ B)).length (Nat.le_refl _) hA

theorem parseReturnCode_exitFooter (code : Int) :
    parseReturnCode (exitFooter code) = code := by
  have hdecomp : (exitFooter code).data =
      "Error: Script exited with ".data ++
        (retSep ++ (' ' :: (intToString code).data ++ ['\n'])) := by
    show ("Error: Script exited with return code " ++ intToString code ++ "\n").data = _
    rw [String.data_append, String.data_append]
    rw [show ("Error: Script exited with return code ").data =
      "Error: Script exited with ".data ++ retSep ++ [' '] from by decide]
    simp [show ("\n").data = ['\n'] from rfl]
  have hB : 'r' ∉ ' ' :: (intToString code).data ++ ['\n'] := by
    intro hmem
    rcases List.mem_cons.mp hmem with h1 | h1
    · exact absurd h1.symm (by decide)
    · rcases List.mem_append.mp h1 with h2 | h2
      · have : ('r').isDigit = true ∨ 'r' = '-' := by
          cases code with
          | ofNat n =>
            have hall := all_isDigit_natDigitsLE n
            rw [← List.all_reverse] at hall
            exact Or.inl (by
              have := List.all_eq_true.mp hall _ h2
              simp at this)
          | negSucc m =>
            rcases List.mem_cons.mp h2 with h3 | h3
            · exact Or.inr h3
            · have hall := all_isDigit_natDigitsLE (m + 1)
              rw [← List.all_reverse] at hall
              exact Or.inl (by
                have := List.all_eq_true.mp hall _ h3
                simp at this)
        rcases this with h3 | h3
        · exact absurd h3 (by decide)
        · exact absurd h3 (by decide)
      · simp at h2
  have hsplit : splitTailRet? (exitFooter code).data =
      some (' ' :: (intToString code).data ++ ['\n']) := by
    rw [hdecomp]
    exact splitTailRet_across _ hB _ (by decide)
  unfold parseReturnCode pySplitLastRet
  rw [hsplit]
  show (match pyInt? ⟨' ' :: (intToString code).data ++ ['\n']⟩ with
    | some n => n
    | none => 1) = code
  rw [pyInt_wrap]

/-! ### String append helpers -/

theorem strExt {a b : String} (h : a.data = b.data) : a = b := by
  cases a
  cases b
  exact congrArg String.mk h

theorem str_append_assoc (a b c : String) : a ++ b ++ c = a ++ (b ++ c) :=
  strExt (by simp [String.data_append])

theorem str_empty_append (s : String) : "" ++ s = s :=
  strExt (by simp [String.data_append])

theorem pyJoin_append (a b : List String) :
    pyJoin (a ++ b) = pyJoin a ++ pyJoin b := by
  induction a with
  | nil => simp [pyJoin, str_empty_append]
  | cons s rest ih =>
    show s ++ pyJoin (rest ++ b) = s ++ pyJoin rest ++ pyJoin b
    rw [ih, str_append_assoc]

/-! ### Recognition lemmas for the re-parse -/

theorem pyStartsWith_exitFooter (code : Int) :
    pyStartsWith (exitFooter code) footerMark = true := by
  unfold pyStartsWith
  have : (exitFooter code).data =
      footerMark.data ++ ([' '] ++ ((intToString code) ++ "\n").data) := by
    show ("Error: Script exited with return code " ++ intToString code ++ "\n").data = _
    rw [str_append_assoc, String.data_append]
    rw [show ("Error: Script exited with return code ").data =
      footerMark.data ++ [' '] from by decide]
    simp
  rw [this]
  exact isPrefixOf_self_append _ _

theorem pyStartsWith_banner_headed (x : String) :
    pyStartsWith (bannerLine ++ x) footerMark = false := by
  unfold pyStartsWith
  rw [String.data_append]
  rw [show bannerLine.data = 'S' :: "tarting script execution...\n".data from rfl]
  rw [show footerMark.data = 'E' :: "rror: Script exited with return code".data from rfl]
  show (('E' == 'S') && _) = false
  simp

theorem pyStartsWith_fileContent (events : List OutLine) (code : Int) :
    pyStartsWith (fileContentOf events code) footerMark = false := by
  unfold fileContentOf
  rw [str_append_assoc]
  exact pyStartsWith_banner_headed _

theorem parsedExitCode_yields_nonzero (events : List OutLine) (code : Int)
    (h : code ≠ 0) : parsedExitCode (executeYields events code) = code := by
  unfold parsedExitCode executeYields
  rw [if_pos h, List.foldl_append]
  simp only [List.foldl_cons, List.foldl_nil]
  rw [if_pos (pyStartsWith_exitFooter code), parseReturnCode_exitFooter]
  rw [if_neg (by simp [pyStartsWith_fileContent])]

theorem parsedExitCode_yields_zero (events : List OutLine) :
    parsedExitCode (executeYields events 0) = 0 := by
  unfold parsedExitCode executeYields
  rw [if_neg (by simp), List.foldl_append]
  simp only [List.foldl_nil, List.foldl_cons]
  rw [if_neg (by simp [pyStartsWith_fileContent])]

theorem I2_map (db : List Execution) (f : Execution → Execution)
    (hf : ∀ e, invE e → invE (f e)) (h : I2 db) : I2 (db.map f) := by
  intro e he
  obtain ⟨x, hx, rfl⟩ := List.mem_map.mp he
  exact hf x (h x hx)

theorem I2_append_single (db : List Execution) (e : Execution)
    (h : I2 db) (he : invE e) : I2 (db ++ [e]) := by
  intro x hx
  rcases List.mem_append.mp hx with h1 | h1
  · exact h x h1
  · rw [List.mem_singleton.mp h1]
    exact he

theorem invE_markInterrupted (msg : String) (now : Nat) (e : Execution)
    (h : invE e) : invE (markInterrupted msg now e) := by
  unfold markInterrupted
  split
  · simp [invE]
  · exact h

/-! ## Behaviour of the execute_script route (claim C2) -/

theorem executeScriptRoute_spec (db : List Execution) (sid now newId : Nat)
    (db' : List Execution)
    (hok : executeScriptRoute db sid now newId = Except.ok db') :
    (∀ e ∈ db', e.script_id = sid → e.status ≠ ExecutionStatus.running) ∧
    (∀ e ∈ db, e.script_id = sid → e.status = ExecutionStatus.running →
      ∃ e' ∈ db', e'.id = e.id ∧ e'.status = ExecutionStatus.failure ∧
        e'.completed_at = some now ∧ e'.error_message = some interruptMsg) ∧
    mkPending newId sid now ∈ db' := by
  unfold executeScriptRoute at hok
  split at hok
  case h_1 heq =>
    simp only [Except.ok.injEq] at hok
    subst hok
    have hnone : ∀ e ∈ db, e.script_id = sid → e.status ≠ ExecutionStatus.running := by
      intro e he h1 h2
      have hmem : e ∈ db.filter
          (fun e => e.script_id == sid && e.status == ExecutionStatus.running) :=
        List.mem_filter.mpr ⟨he, by simp [h1, h2]⟩
      rw [heq] at hmem
      simp at hmem
    refine ⟨?_, ?_, by simp⟩
    · intro e he h1
      rcases List.mem_append.mp he with h2 | h2
      · exact hnone e h2 h1
      · rw [List.mem_singleton.mp h2]
        simp [mkPending]
    · intro e he h1 h2
      exact absurd h2 (hnone e he h1)
  case h_2 r heq =>
    simp only [Except.ok.injEq] at hok
    subst hok
    have hrmem : r ∈ db := by
      have : r ∈ db.filter
          (fun e => e.script_id == sid && e.status == ExecutionStatus.running) := by
        rw [heq]
        simp
      exact (List.mem_filter.mp this).1
    have huniq : ∀ e ∈ db, e.script_id = sid → e.status = ExecutionStatus.running →
        e = r := by
      intro e he h1 h2
      have : e ∈ db.filter
          (fun e => e.script_id == sid && e.status == ExecutionStatus.running) :=
        List.mem_filter.mpr ⟨he, by simp [h1, h2]⟩
      rw [heq] at this
      simpa using this
    refine ⟨?_, ?_, by simp⟩
    · intro e he h1
      rcases List.mem_append.mp he with h2 | h2
      · obtain ⟨x, hx, rfl⟩ := List.mem_map.mp h2
        by_cases hid : (x.id == r.id) = true
        · simp only [if_pos hid]
          simp
        · simp only [if_neg hid] at h1 ⊢
          intro h3
          exact hid (by simp [huniq x hx h1 h3])
      · rw [List.mem_singleton.mp h2]
        simp [mkPending]
    · intro e he h1 h2
      have her : e = r := huniq e he h1 h2
      have hmem2 : ({ r with status := ExecutionStatus.failure, completed_at := some now, error_message := some interruptMsg } : Execution) ∈
          (db.map (fun e => if e.id == r.id then
            { e with status := ExecutionStatus.failure, completed_at := some now,
                     error_message := some interruptMsg } else e)) ++
            [mkPending newId sid now] := by
        apply List.mem_append.mpr
        left
        apply List.mem_map.mpr
        exact ⟨r, hrmem, by rw [if_pos (by simp)]⟩
      exact ⟨_, hmem2, by simp [her], by simp, by simp, by simp⟩
  case h_3 =>
    exact absurd hok (fun h => Except.noConfusion h)

theorem str_append_empty (s : String) : s ++ "" = s :=
  strExt (by simp [String.data_append])

theorem pyJoin_singleton (s : String) : pyJoin [s] = s := by
  show s ++ pyJoin [] = s
  exact str_append_empty s

theorem takeWhile_stops (p : Char → Bool) (hs : p '\n' = false) :
    ∀ (a t : List Char), a.all p = true →
      List.takeWhile p (a ++ '\n' :: t) = a := by
  intro a t
  induction a with
  | nil =>
    intro _
    simp [List.takeWhile_cons, hs]
  | cons c a' ih =>
    intro hall
    simp only [List.all_cons, Bool.and_eq_true] at hall
    rw [List.cons_append, List.takeWhile_cons, if_pos (by simp [hall.1])]
    rw [ih hall.2]

theorem I2_update (db : List Execution) (p : Execution → Bool)
    (g : Execution → Execution) (h : I2 db)
    (hg : ∀ e ∈ db, p e = true → invE e → invE (g e)) :
    I2 (db.map (fun e => if p e then g e else e)) := by
  intro x hx
  obtain ⟨e, he, rfl⟩ := List.mem_map.mp hx
  by_cases hp : p e = true
  · rw [if_pos hp]
    exact hg e he hp (h e he)
  · rw [if_neg hp]
    exact h e he

theorem I2_executeScriptRoute (db : List Execution) (sid now newId : Nat)
    (db' : List Execution)
    (hok : executeScriptRoute db sid now newId = Except.ok db') (h : I2 db) :
    I2 db' := by
  unfold executeScriptRoute at hok
  split at hok
  case h_1 heq =>
    simp only [Except.ok.injEq] at hok
    subst hok
    exact I2_append_single db _ h (by simp [invE, mkPending])
  case h_2 r heq =>
    simp only [Except.ok.injEq] at hok
    subst hok
    apply I2_append_single
    · exact I2_update db _ _ h (fun e _ _ _ => by simp [invE])
    · simp [invE, mkPending]
  case h_3 =>
    exact absurd hok (fun hh => Except.noConfusion hh)

theorem I2_schedulerStartRecovery (db : List Execution) (now : Nat) (h : I2 db) :
    I2 (schedulerStartRecovery db now) :=
  I2_map db _ (fun e he => invE_markInterrupted restartMsg now e he) h

theorem I2_schedulerStopMark (db : List Execution) (now : Nat) (h : I2 db) :
    I2 (schedulerStopMark db now) :=
  I2_map db _ (fun e he => invE_markInterrupted shutdownMsg now e he) h

theorem I2_markRunningOp (db : List Execution) (eid : Nat) (h : I2 db)
    (hpre : ∀ e ∈ db, e.id = eid →
      e.status = ExecutionStatus.pending ∨ e.status = ExecutionStatus.running) :
    I2 (markRunningOp db eid) := by
  unfold markRunningOp
  apply I2_update db _ _ h
  intro e he hp hinv
  have hs := hpre e he (by simpa using hp)
  have hc : e.completed_at.isSome = false := by
    by_contra hx
    have hsome : e.completed_at.isSome = true := by
      revert hx
      cases e.completed_at.isSome <;> simp
    have ht := hinv.mp hsome
    rcases ht with h2 | h2 <;> rcases hs with h1 | h1 <;> rw [h1] at h2 <;>
      exact ExecutionStatus.noConfusion h2
  unfold invE
  simp [hc]

theorem I2_finishOp (db : List Execution) (eid now : Nat) (log : String)
    (ec : Int) (h : I2 db) : I2 (finishOp db eid now log ec) := by
  unfold finishOp
  apply I2_update db _ _ h
  intro e _ _ _
  by_cases hec : ec ≠ 0 <;> simp [invE, hec]

theorem I2_failOp (db : List Execution) (eid now : Nat) (msg : String)
    (h : I2 db) : I2 (failOp db eid now msg) := by
  unfold failOp
  apply I2_update db _ _ h
  intro e _ _ _
  simp [invE]

theorem I2_schedSuccessOp (db : List Execution) (eid now : Nat) (log : String)
    (h : I2 db) : I2 (schedSuccessOp db eid now log) := by
  unfold schedSuccessOp
  apply I2_update db _ _ h
  intro e _ _ _
  simp [invE]

theorem I2_schedFailureOp (db : List Execution) (eid now : Nat) (msg log : String)
    (h : I2 db) : I2 (schedFailureOp db eid now msg log) := by
  unfold schedFailureOp
  apply I2_update db _ _ h
  intro e _ _ _
  simp [invE]

/-! ## Claim theorems -/

/-- C1, counterexample: for the hello-world script (one stdout line
`hello`, exit code 0) the stored `log_output` is not `hello\n` as the
claim asserts; the run does end SUCCESS, but the only line `execute`
yields to `_execute_script` is the whole output-file content, which
begins with the banner, so the stored value is
`Starting script execution...\nhello\n`. -/
theorem C1_counterexample :
    logOutputOf [(false, "hello")] 0 ≠ "hello\n" ∧
    logOutputOf [(false, "hello")] 0 = "Starting script execution...\nhello\n" ∧
    executionResultOf [(false, "hello")] 0 = (ExecutionStatus.success, none) :=
  ⟨by decide, by decide, by decide⟩

/-- C1, amended: for every terminal run of the execute path the stored
`log_output` is the exit-code footer when the exit code is nonzero,
followed by the entire output-file content (the banner, the per-line
file image with `ERROR: ` prefixes on stderr, and the footer again
when the exit code is nonzero); it is never the bare child output,
because the file content always begins with the banner. -/
theorem C1_log_output (events : List OutLine) (code : Int) :
    logOutputOf events code =
      (if code ≠ 0 then exitFooter code else "") ++
      (bannerLine ++ pyJoin (events.map fileLine) ++
        (if code ≠ 0 then exitFooter code else "")) ∧
    pyStartsWith (logOutputOf events 0) bannerLine = true := by
  constructor
  · unfold logOutputOf executeYields fileContentOf
    rw [pyJoin_append, pyJoin_singleton]
    by_cases h : code ≠ 0
    · simp only [if_pos h, pyJoin_singleton]
    · simp only [if_neg h]
      rfl
  · show pyStartsWith (pyJoin (executeYields events 0)) bannerLine = true
    unfold executeYields
    rw [if_neg (by simp), List.nil_append, pyJoin_singleton]
    unfold pyStartsWith fileContentOf
    rw [String.data_append, String.data_append, List.append_assoc]
    exact isPrefixOf_self_append _ _

/-- C2, counterexample: a prior PENDING execution is not interrupted by
`execute_script`; after the route runs, the old row is still PENDING
with no error message and two PENDING rows for the script coexist,
while the claim requires the old row to be marked FAILURE. -/
theorem C2_counterexample :
    executeScriptRoute [⟨1, 1, none, 0, none, ExecutionStatus.pending, none, none⟩] 1 5 2 =
      Except.ok [⟨1, 1, none, 0, none, ExecutionStatus.pending, none, none⟩,
        mkPending 2 1 5] ∧
    (List.filter (fun e => e.status == ExecutionStatus.pending)
      [⟨1, 1, none, 0, none, ExecutionStatus.pending, none, none⟩,
        (mkPending 2 1 5 : Execution)]).length = 2 :=
  ⟨by rfl, by decide⟩

/-- C2, amended: when `execute_script` succeeds, any prior RUNNING
execution of the script (the query selects RUNNING only, not PENDING)
is marked FAILURE with `interruptMsg` and a completion time before the
new PENDING row is appended, so afterwards no execution of the script
is RUNNING; prior PENDING rows are left untouched (under the primary
key property of the table). -/
theorem C2_interrupts_running (db : List Execution) (sid now newId : Nat)
    (db' : List Execution)
    (hok : executeScriptRoute db sid now newId = Except.ok db')
    (hpk : ∀ e₁ ∈ db, ∀ e₂ ∈ db, e₁.id = e₂.id → e₁ = e₂) :
    (∀ e ∈ db', e.script_id = sid → e.status ≠ ExecutionStatus.running) ∧
    (∀ e ∈ db, e.script_id = sid → e.status = ExecutionStatus.running →
      ∃ e' ∈ db', e'.id = e.id ∧ e'.status = ExecutionStatus.failure ∧
        e'.completed_at = some now ∧ e'.error_message = some interruptMsg) ∧
    mkPending newId sid now ∈ db' ∧
    (∀ e ∈ db, e.status = ExecutionStatus.pending → e ∈ db') := by
  obtain ⟨hA, hB, hC⟩ := executeScriptRoute_spec db sid now newId db' hok
  refine ⟨hA, hB, hC, ?_⟩
  unfold executeScriptRoute at hok
  split at hok
  case h_1 heq =>
    simp only [Except.ok.injEq] at hok
    subst hok
    intro e he _
    exact List.mem_append.mpr (Or.inl he)
  case h_2 r heq =>
    simp only [Except.ok.injEq] at hok
    subst hok
    intro e he hp
    have hrmem : r ∈ db.filter
        (fun e => e.script_id == sid && e.status == ExecutionStatus.running) := by
      rw [heq]
      simp
    have hrdb : r ∈ db := (List.mem_filter.mp hrmem).1
    have hrrun : r.status = ExecutionStatus.running := by
      have := (List.mem_filter.mp hrmem).2
      simp at this
      exact this.2
    have hne : ¬ ((e.id == r.id) = true) := by
      intro hb
      have her : e = r := hpk e he r hrdb (by simpa using hb)
      rw [her, hrrun] at hp
      exact ExecutionStatus.noConfusion hp
    apply List.mem_append.mpr
    left
    apply List.mem_map.mpr
    exact ⟨e, he, by rw [if_neg hne]⟩
  case h_3 =>
    exact absurd hok (fun hh => Except.noConfusion hh)

/-- C2, witness: on a table with one RUNNING execution of script 1, the
route marks it FAILURE and inserts the new PENDING row. -/
theorem C2_witness :
    (∀ e ∈ [(⟨1, 1, none, 0, some 5, ExecutionStatus.failure, none,
        some interruptMsg⟩ : Execution), mkPending 2 1 5],
      e.script_id = 1 → e.status ≠ ExecutionStatus.running) ∧
    (∀ e ∈ [(⟨1, 1, none, 0, none, ExecutionStatus.running, none, none⟩ : Execution)],
      e.script_id = 1 → e.status = ExecutionStatus.running →
      ∃ e' ∈ [(⟨1, 1, none, 0, some 5, ExecutionStatus.failure, none,
          some interruptMsg⟩ : Execution), mkPending 2 1 5],
        e'.id = e.id ∧ e'.status = ExecutionStatus.failure ∧
        e'.completed_at = some 5 ∧ e'.error_message = some interruptMsg) ∧
    mkPending 2 1 5 ∈ [(⟨1, 1, none, 0, some 5, ExecutionStatus.failure, none,
        some interruptMsg⟩ : Execution), mkPending 2 1 5] ∧
    (∀ e ∈ [(⟨1, 1, none, 0, none, ExecutionStatus.running, none, none⟩ : Execution)],
      e.status = ExecutionStatus.pending →
      e ∈ [(⟨1, 1, none, 0, some 5, ExecutionStatus.failure, none,
          some interruptMsg⟩ : Execution), mkPending 2 1 5]) :=
  C2_interrupts_running
    [⟨1, 1, none, 0, none, ExecutionStatus.running, none, none⟩] 1 5 2
    [⟨1, 1, none, 0, some 5, ExecutionStatus.failure, none, some interruptMsg⟩,
      mkPending 2 1 5]
    (by rfl) (by decide)

/-- C3: the crash-recovery pass of `SchedulerService.start` (run before
the scheduler is started) leaves no execution PENDING or RUNNING, marks
every previously PENDING or RUNNING execution FAILURE with
`restartMsg` and a completion time, and leaves every other execution
unchanged. -/
theorem C3_crash_recovery (db : List Execution) (now : Nat) :
    (∀ e ∈ schedulerStartRecovery db now,
      e.status ≠ ExecutionStatus.pending ∧ e.status ≠ ExecutionStatus.running) ∧
    (∀ e ∈ db, (e.status = ExecutionStatus.pending ∨
        e.status = ExecutionStatus.running) →
      ∃ e' ∈ schedulerStartRecovery db now, e'.id = e.id ∧
        e'.status = ExecutionStatus.failure ∧ e'.completed_at = some now ∧
        e'.error_message = some restartMsg) ∧
    (∀ e ∈ db, e.status ≠ ExecutionStatus.pending →
      e.status ≠ ExecutionStatus.running → e ∈ schedulerStartRecovery db now) := by
  refine ⟨?_, ?_, ?_⟩
  · intro e he
    obtain ⟨x, hx, rfl⟩ := List.mem_map.mp he
    unfold markInterrupted
    split
    · simp
    · next hcond =>
      simp at hcond
      exact ⟨hcond.1, hcond.2⟩
  · intro e he hs
    have hcond : (e.status == ExecutionStatus.pending ||
        e.status == ExecutionStatus.running) = true := by
      rcases hs with h | h <;> simp [h]
    refine ⟨markInterrupted restartMsg now e, List.mem_map.mpr ⟨e, he, rfl⟩,
      ?_, ?_, ?_, ?_⟩ <;>
      · unfold markInterrupted
        rw [if_pos hcond]
  · intro e he h1 h2
    apply List.mem_map.mpr
    refine ⟨e, he, ?_⟩
    unfold markInterrupted
    rw [if_neg (by simp [h1, h2])]

/-- C3, witness: recovery over a table holding one RUNNING execution. -/
theorem C3_witness :
    ∃ e' ∈ schedulerStartRecovery
        [⟨1, 1, none, 0, none, ExecutionStatus.running, none, none⟩] 4,
      e'.id = 1 ∧ e'.status = ExecutionStatus.failure ∧
      e'.completed_at = some 4 ∧ e'.error_message = some restartMsg :=
  (C3_crash_recovery
    [⟨1, 1, none, 0, none, ExecutionStatus.running, none, none⟩] 4).2.1
    ⟨1, 1, none, 0, none, ExecutionStatus.running, none, none⟩
    (by decide) (Or.inr rfl)

/-- C4, counterexample: the stored timeout error message is
`Script timed out after 300 seconds` (from the `RuntimeError` raised in
`execute` and stored via `str(e)`), not
`Script execution timed out after 300 seconds` as the claim asserts. -/
theorem C4_counterexample :
    timeoutExnMessage 300 ≠ claimTimeoutMessage 300 ∧
    timeoutExnMessage 300 = "Script timed out after 300 seconds" ∧
    claimTimeoutMessage 300 = "Script execution timed out after 300 seconds" ∧
    timeoutDbUpdate [⟨1, 1, none, 0, none, ExecutionStatus.running, none, none⟩]
        1 9 300 =
      [⟨1, 1, none, 0, some 9, ExecutionStatus.failure, none,
        some "Script timed out after 300 seconds"⟩] :=
  ⟨by decide, by decide, by decide, by decide⟩

/-- C4, amended: when the wall clock exceeds `max_execution_time` the
execution row is marked FAILURE with completion time and error message
`Script timed out after N seconds` where N is the configured
`max_execution_time`, and the still-running child receives a graceful
terminate followed by a kill exactly when it does not exit within the
grace period. -/
theorem C4_timeout (db : List Execution) (e : Execution)
    (eid now maxT : Nat) (exitsInGrace : Bool)
    (he : e ∈ db) (hid : e.id = eid) :
    (∃ e' ∈ timeoutDbUpdate db eid now maxT,
      e'.id = e.id ∧ e'.status = ExecutionStatus.failure ∧
      e'.completed_at = some now ∧
      e'.error_message =
        some ("Script timed out after " ++ natToString maxT ++ " seconds")) ∧
    ProcAction.terminate ∈ terminationActions false exitsInGrace ∧
    (exitsInGrace = false → ProcAction.kill ∈ terminationActions false exitsInGrace) ∧
    (exitsInGrace = true → ProcAction.kill ∉ terminationActions false exitsInGrace) := by
  refine ⟨?_, ?_, ?_, ?_⟩
  · refine ⟨{ e with status := ExecutionStatus.failure, completed_at := some now, error_message := some (timeoutExnMessage maxT) }, ?_, by simp, by simp, by simp, by simp [timeoutExnMessage]⟩
    unfold timeoutDbUpdate failOp
    apply List.mem_map.mpr
    exact ⟨e, he, by rw [if_pos (by simp [hid])]⟩
  · cases exitsInGrace <;> simp [terminationActions]
  · intro h
    subst h
    simp [terminationActions]
  · intro h
    subst h
    simp [terminationActions]

/-- C4, witness: a RUNNING execution timed out at 300 seconds with a
child that ignores the graceful terminate. -/
theorem C4_witness :
    (∃ e' ∈ timeoutDbUpdate
        [⟨1, 1, none, 0, none, ExecutionStatus.running, none, none⟩] 1 9 300,
      e'.id = 1 ∧ e'.status = ExecutionStatus.failure ∧
      e'.completed_at = some 9 ∧
      e'.error_message =
        some ("Script timed out after " ++ natToString 300 ++ " seconds")) ∧
    ProcAction.terminate ∈ terminationActions false false ∧
    (false = false → ProcAction.kill ∈ terminationActions false false) ∧
    (false = true → ProcAction.kill ∉ terminationActions false false) :=
  C4_timeout [⟨1, 1, none, 0, none, ExecutionStatus.running, none, none⟩]
    ⟨1, 1, none, 0, none, ExecutionStatus.running, none, none⟩ 1 9 300 false
    (by decide) rfl

/-- C5: when the child exits with a nonzero code the footer line
`Error: Script exited with return code <n>` is appended to the output
file after the streamed lines, and the execution is marked FAILURE
with error message `Script exited with return code <n>`; when the
child exits 0 the execution is marked SUCCESS, for every child output
(the exit code is re-parsed by `_execute_script` from its yields, but
the only yields are the footer and the banner-headed file content). -/
theorem C5_exit_code (events : List OutLine) (code : Int) :
    (code ≠ 0 →
      fileContentOf events code =
        bannerLine ++ pyJoin (events.map fileLine) ++ exitFooter code ∧
      executionResultOf events code =
        (ExecutionStatus.failure,
         some ("Script exited with return code " ++ intToString code))) ∧
    (code = 0 →
      executionResultOf events code = (ExecutionStatus.success, none)) := by
  constructor
  · intro h
    constructor
    · unfold fileContentOf
      rw [if_pos h]
    · unfold executionResultOf
      simp only [parsedExitCode_yields_nonzero events code h]
      rw [if_pos h]
  · intro h0
    subst h0
    unfold executionResultOf
    simp only [parsedExitCode_yields_zero events]
    simp

/-- C5, witness: a run with one stdout line and exit code 2 ends
FAILURE with the exit-code message, and a run with exit code 0 ends
SUCCESS even when the script prints a footer-like line. -/
theorem C5_witness :
    executionResultOf [(false, "x")] 2 =
      (ExecutionStatus.failure,
       some ("Script exited with return code " ++ intToString 2)) ∧
    executionResultOf [(false, "Error: Script exited with return code 7")] 0 =
      (ExecutionStatus.success, none) :=
  ⟨((C5_exit_code [(false, "x")] 2).1 (by decide)).2,
   (C5_exit_code [(false, "Error: Script exited with return code 7")] 0).2 rfl⟩

/-- C6, counterexample: for the unrecognized version spec `1.2.3`,
`setup_environment` writes `requests==1.2.3`, not the bare package name
the claim asserts for every serializer. -/
theorem C6_counterexample :
    requirementLineSetup ⟨"requests", "1.2.3", none⟩ = "requests==1.2.3" ∧
    requirementLineClaim ⟨"requests", "1.2.3", none⟩ = "requests" ∧
    requirementLineSetup ⟨"requests", "1.2.3", none⟩ ≠
      requirementLineClaim ⟨"requests", "1.2.3", none⟩ :=
  ⟨by decide, by decide, by decide⟩

/-- C6, amended: the serializer of `_install_dependencies_task` follows
the claimed rule exactly (empty or `*` gives the bare name, a spec
beginning with a recognized comparison operator is appended, anything
else gives the bare name); the serializer of `setup_environment`
instead treats an unrecognized spec that is nonempty after stripping
and does not begin with `*` or `=` as an exact pin
`name==<stripped spec>`. -/
theorem C6_serialization (dep : Dependency) :
    (requirementLineTask dep = requirementLineClaim dep) ∧
    (¬ (dep.version_spec = "" ∨ dep.version_spec = "*") →
      ¬ (pyStartsWith dep.version_spec "==" = true) →
      ¬ (pyStartsWith dep.version_spec ">=" = true ∨
         pyStartsWith dep.version_spec "<=" = true ∨
         pyStartsWith dep.version_spec ">" = true ∨
         pyStartsWith dep.version_spec "<" = true ∨
         pyStartsWith dep.version_spec "~=" = true) →
      (pyStrip dep.version_spec ≠ "" ∧
       ¬ (pyStartsWith (pyStrip dep.version_spec) "*" = true) ∧
       ¬ (pyStartsWith (pyStrip dep.version_spec) "=" = true)) →
      requirementLineSetup dep =
        pyStrip dep.package_name ++ "==" ++ pyStrip dep.version_spec) := by
  constructor
  · unfold requirementLineTask requirementLineClaim
    split_ifs <;> first | rfl | tauto
  · intro h1 h2 h3 h4
    unfold requirementLineSetup
    rw [if_neg h1, if_neg h2, if_neg h3]
    show (if pyStrip dep.version_spec ≠ "" ∧
        ¬ (pyStartsWith (pyStrip dep.version_spec) "*" = true) ∧
        ¬ (pyStartsWith (pyStrip dep.version_spec) "=" = true) then
      pyStrip dep.package_name ++ "==" ++ pyStrip dep.version_spec
    else pyStrip dep.package_name) = pyStrip dep.package_name ++ "==" ++ pyStrip dep.version_spec
    rw [if_pos h4]

/-- C6, witness: the two serializers on the spec `1.2.3`. -/
theorem C6_witness :
    requirementLineTask ⟨"requests", "1.2.3", none⟩ =
      requirementLineClaim ⟨"requests", "1.2.3", none⟩ ∧
    requirementLineSetup ⟨"requests", "1.2.3", none⟩ =
      pyStrip "requests" ++ "==" ++ pyStrip "1.2.3" :=
  ⟨(C6_serialization ⟨"requests", "1.2.3", none⟩).1,
   (C6_serialization ⟨"requests", "1.2.3", none⟩).2
     (by decide) (by decide) (by decide) (by decide)⟩

/-- C7, counterexample: with pip reporting `requests` and the declared
package named `Requests`, the provisioner in `setup_environment` leaves
`installed_version` unset (its dict lookup is case-sensitive) although
the names match case-insensitively; the install-dependencies task does
update it. -/
theorem C7_counterexample :
    updateInstalledSetup [("requests", "2.31.0")] ⟨"Requests", "*", none⟩ =
      ⟨"Requests", "*", none⟩ ∧
    pyLower "requests" = pyLower "Requests" ∧
    updateInstalledTask [("requests", "2.31.0")] ⟨"Requests", "*", none⟩ =
      ⟨"Requests", "*", some "2.31.0"⟩ :=
  ⟨by decide, by decide, by decide⟩

/-- C7, amended: after installation the install-dependencies task sets
`installed_version` from the first reported package whose lowered name
matches the lowered declared name, while `setup_environment` updates
only on an exact (case-sensitive) name hit and leaves the dependency
unchanged otherwise. -/
theorem C7_installed_versions (m : List (String × String)) (dep : Dependency)
    (v : String) :
    (lookupFold m dep.package_name = some v →
      (updateInstalledTask m dep).installed_version = some v) ∧
    (lookupFold m dep.package_name = none → updateInstalledTask m dep = dep) ∧
    (lookupExact m dep.package_name = some v →
      (updateInstalledSetup m dep).installed_version = some v) ∧
    (lookupExact m dep.package_name = none → updateInstalledSetup m dep = dep) ∧
    (lookupFold m dep.package_name = none ↔
      ∀ p ∈ m, pyLower p.1 ≠ pyLower dep.package_name) := by
  refine ⟨?_, ?_, ?_, ?_, ?_⟩
  · intro h
    unfold updateInstalledTask
    rw [h]
  · intro h
    unfold updateInstalledTask
    rw [h]
  · intro h
    unfold updateInstalledSetup
    rw [h]
  · intro h
    unfold updateInstalledSetup
    rw [h]
  · unfold lookupFold
    constructor
    · intro h p hp hfold
      have : m.find? (fun p => pyLower p.1 = pyLower dep.package_name) = none := by
        cases hf : m.find? (fun p => pyLower p.1 = pyLower dep.package_name) with
        | none => rfl
        | some q =>
          rw [hf] at h
          exact absurd h (by simp)
      have := List.find?_eq_none.mp this p hp
      simp [hfold] at this
    · intro h
      have : m.find? (fun p => pyLower p.1 = pyLower dep.package_name) = none :=
        List.find?_eq_none.mpr (fun p hp => by simp [h p hp])
      rw [this]
      rfl

/-- C7, witness: the case-insensitive update of the task and the
case-sensitive miss of `setup_environment` on a concrete report. -/
theorem C7_witness :
    (updateInstalledTask [("requests", "2.31.0")]
      ⟨"Requests", "*", none⟩).installed_version = some "2.31.0" ∧
    updateInstalledSetup [("requests", "2.31.0")] ⟨"Requests", "*", none⟩ =
      ⟨"Requests", "*", none⟩ :=
  ⟨(C7_installed_versions [("requests", "2.31.0")] ⟨"Requests", "*", none⟩
      "2.31.0").1 (by decide),
   (C7_installed_versions [("requests", "2.31.0")] ⟨"Requests", "*", none⟩
      "2.31.0").2.2.2.1 (by decide)⟩

/-- C8: invariant I2 (`completed_at` is set exactly on the terminal
statuses SUCCESS and FAILURE) is preserved by every operation of the
code that creates or updates execution rows: the manual-run route, the
crash-recovery and shutdown passes, the transition to RUNNING performed
by the background task on the freshly inserted non-terminal row, the
final update of the background task, the failure handlers (including
cancellation), the scheduled-run updates and the three scheduled-run
inserts. -/
theorem C8_completed_iff_terminal (db db' : List Execution)
    (sid schedId now newId eid : Nat) (log msg : String) (ec : Int)
    (h : I2 db) :
    (executeScriptRoute db sid now newId = Except.ok db' → I2 db') ∧
    I2 (schedulerStartRecovery db now) ∧
    I2 (schedulerStopMark db now) ∧
    ((∀ e ∈ db, e.id = eid → e.status = ExecutionStatus.pending ∨
        e.status = ExecutionStatus.running) → I2 (markRunningOp db eid)) ∧
    I2 (finishOp db eid now log ec) ∧
    I2 (failOp db eid now msg) ∧
    I2 (schedSuccessOp db eid now log) ∧
    I2 (schedFailureOp db eid now msg log) ∧
    I2 (db ++ [mkScheduledRunning newId sid schedId now]) ∧
    I2 (db ++ [mkScheduledPending newId sid schedId now]) ∧
    I2 (db ++ [mkScheduledDepFailure newId sid schedId now]) :=
  ⟨fun hok => I2_executeScriptRoute db sid now newId db' hok h,
   I2_schedulerStartRecovery db now h,
   I2_schedulerStopMark db now h,
   fun hpre => I2_markRunningOp db eid h hpre,
   I2_finishOp db eid now log ec h,
   I2_failOp db eid now msg h,
   I2_schedSuccessOp db eid now log h,
   I2_schedFailureOp db eid now msg log h,
   I2_append_single db _ h (by simp [invE, mkScheduledRunning]),
   I2_append_single db _ h (by simp [invE, mkScheduledPending]),
   I2_append_single db _ h (by simp [invE, mkScheduledDepFailure])⟩

/-- C8, witness: the recovery pass and the final update on a table with
one PENDING row keep I2. -/
theorem C8_witness :
    I2 (schedulerStartRecovery
      [⟨1, 1, none, 0, none, ExecutionStatus.pending, none, none⟩] 4) ∧
    I2 (finishOp [⟨1, 1, none, 0, none, ExecutionStatus.pending, none, none⟩]
      1 4 "log" 0) :=
  ⟨(C8_completed_iff_terminal
      [⟨1, 1, none, 0, none, ExecutionStatus.pending, none, none⟩] [] 1 1 4 2 1
      "log" "m" 0 (by decide)).2.1,
   (C8_completed_iff_terminal
      [⟨1, 1, none, 0, none, ExecutionStatus.pending, none, none⟩] [] 1 1 4 2 1
      "log" "m" 0 (by decide)).2.2.2.2.1⟩

/-- C9: for every run in which the dependency check passes and the
script file exists, the execute trace touches the output file, writes
the banner, and only then spawns the child; consequently the output
file content begins with the banner and its first line is
`Starting script execution...` for every possible child behaviour. -/
theorem C9_banner_first (events : List OutLine) (code : Int) :
    (executeTrace true true events code).take 3 =
      [ExecStep.touchOutput, ExecStep.writeFile bannerLine, ExecStep.spawnChild] ∧
    pyStartsWith (fileContentOf events code) bannerLine = true ∧
    firstLine (fileContentOf events code) = "Starting script execution..." := by
  have hdata : (fileContentOf events code).data =
      bannerLine.data ++ ((pyJoin (events.map fileLine)).data ++
        (if code ≠ 0 then exitFooter code else "").data) := by
    unfold fileContentOf
    rw [String.data_append, String.data_append, List.append_assoc]
  refine ⟨?_, ?_, ?_⟩
  · unfold executeTrace
    rw [if_neg (by simp), if_neg (by simp)]
    rfl
  · unfold pyStartsWith
    rw [hdata]
    exact isPrefixOf_self_append _ _
  · unfold firstLine
    apply strExt
    show ((fileContentOf events code).data.takeWhile fun c => !(c == '\n')) =
      "Starting script execution...".data
    rw [hdata]
    show List.takeWhile (fun c => !(c == '\n'))
        ("Starting script execution...".data ++ '\n' ::
          ((pyJoin (events.map fileLine)).data ++
            (if code ≠ 0 then exitFooter code else "").data)) =
      "Starting script execution...".data
    apply takeWhile_stops
    · decide
    · decide

/-- C10: with `remove_environment=False`, `cleanup` removes exactly the
files matching `output_*.txt` (any execution id), `pip.log`,
`pip_finished` and `pip_success`; it keeps every other file, in
particular `script.py`, `requirements.txt` and `venv`; and it changes
nothing when the script directory does not exist. -/
theorem C10_cleanup (files : List String) (f : String) :
    cleanup false false files = files ∧
    (f ∈ files → isTempFile f = true → f ∉ cleanup true false files) ∧
    (f ∈ files → isTempFile f = false → f ∈ cleanup true false files) ∧
    (pyStartsWith f "output_" = true → pyEndsWith f ".txt" = true →
      isTempFile f = true) ∧
    isTempFile "script.py" = false ∧ isTempFile "requirements.txt" = false ∧
    isTempFile "venv" = false ∧ isTempFile "pip.log" = true ∧
    isTempFile "pip_finished" = true ∧ isTempFile "pip_success" = true := by
  refine ⟨rfl, ?_, ?_, ?_, by decide, by decide, by decide, by decide,
    by decide, by decide⟩
  · intro _ ht hmem
    have hfil := (List.mem_filter.mp hmem).2
    simp [ht] at hfil
  · intro hf ht
    exact List.mem_filter.mpr ⟨hf, by simp [ht]⟩
  · intro h1 h2
    unfold isTempFile isOutputTxt
    simp [h1, h2]

/-- C10, witness: on a directory holding an output file of another
execution and the script source, cleanup removes the output file and
keeps the source. -/
theorem C10_witness :
    "output_7.txt" ∉ cleanup true false ["output_7.txt", "script.py"] ∧
    "script.py" ∈ cleanup true false ["output_7.txt", "script.py"] :=
  ⟨(C10_cleanup ["output_7.txt", "script.py"] "output_7.txt").2.1
      (by decide) (by decide),
   (C10_cleanup ["output_7.txt", "script.py"] "script.py").2.2.1
      (by decide) (by decide)⟩

end PyTaskManager
